import Mathlib

/-!
Shallow embedding of the `st2kv` Ansible lookup plugin
(`lookup_plugins/st2kv.py`): the term parser `parse_scope_key` and the
batch resolver `run`.  Python optional string arguments are modelled as
`Option String`, with Python truthiness (`if not x`) as `truthy`:
`none` and `some ""` are falsy.  The HTTP transport is an injected
function from requests to responses; `run` additionally returns the
trace of requests actually issued, so that fail-fast properties can be
stated.
-/

/-- Python truthiness of an optional string: `None` and `""` are falsy. -/
def truthy : Option String → Bool
  | none => false
  | some s => !s.isEmpty

/-- `x if x else y` pattern used by the credential chain (`if not x: x = y`). -/
def orNonEmpty (x y : Option String) : Option String :=
  if truthy x then x else y

/-- The keyword-argument configuration bag accepted by `LookupModule.run`.
Field order: api_url, hostname, port, ssl_verify, auth_token, api_key,
decrypt, user. -/
structure Config where
  api_url : Option String
  hostname : Option String
  port : Option String
  ssl_verify : Bool
  auth_token : Option String
  api_key : Option String
  decrypt : Bool
  user : Option String
deriving DecidableEq

/-- The process environment variables the plugin reads. -/
structure Env where
  st2_action_auth_token : Option String
  st2_auth_token : Option String
  st2_api_key : Option String
deriving DecidableEq

/-- The single authentication header put into the request: the code sets
exactly one of `X-Auth-Token` or `St2-Api-Key`. -/
inductive Header where
  | xAuthToken (token : String)
  | st2ApiKey (key : String)
deriving DecidableEq

/-- One outbound GET request: `requests.get(url, headers=headers, verify=ssl_verify)`. -/
structure Request where
  url : String
  headers : Header
  verify : Bool
deriving DecidableEq

/-- One HTTP response: whether `raise_for_status()` passes, and the JSON
object body (`none` when the body is not a JSON object). -/
structure Response where
  statusOk : Bool
  json : Option (List (String × String))
deriving DecidableEq

/-- The distinct failure sites of the plugin (all surface as `AnsibleError`). -/
inductive St2kvError where
  | invalidTerm
  | noScopeKey (term : String)
  | missingCredentials
  | requestError
  | malformedResponse
deriving DecidableEq

/-- The error raised by `run`: the failure kind, plus the term being
processed when the exception was raised (the outer `except` interpolates
the loop variable `term` into the message). -/
structure RunError where
  kind : St2kvError
  term : String
deriving DecidableEq

/-- `term.split('.')` for the one-character separator `'.'`, on the
character list of the term.  Mirrors Python `str.split` semantics:
always returns at least one part. -/
def splitOnDot : List Char → List (List Char)
  | [] => [[]]
  | c :: cs =>
    let r := splitOnDot cs
    if c = '.' then [] :: r
    else (c :: r.headD []) :: r.tail

/-- `'.'.join(parts)`. -/
def joinDots : List (List Char) → List Char
  | [] => []
  | [p] => p
  | p :: rest => p ++ '.' :: joinDots rest

/-- `LookupModule.parse_scope_key`.  `none` models a `None` term. -/
def parse_scope_key (term : Option String) : Except St2kvError (String × String) :=
  match term with
  | none => Except.error St2kvError.invalidTerm
  | some t =>
    if t = "" then Except.error St2kvError.invalidTerm
    else
      let parts := splitOnDot t.data
      if parts.length = 1 then
        Except.ok ("system", String.mk (parts.headD []))
      else if parts.length < 2 then
        Except.error (St2kvError.noScopeKey t)
      else
        Except.ok (String.mk (parts.headD []), String.mk (joinDots parts.tail))

/-- Lines 123-130: `api_url` from the kwargs, or derived from `hostname`
(default `'localhost'`) and `port`. -/
def resolveApiUrl (cfg : Config) : String :=
  if truthy cfg.api_url then cfg.api_url.getD ""
  else
    let hostname := cfg.hostname.getD "localhost"
    if truthy cfg.port then
      "https://" ++ hostname ++ ":" ++ cfg.port.getD "" ++ "/api"
    else
      "https://" ++ hostname ++ "/api"

/-- Lines 140-144: auth token from the `auth_token` kwarg, else
`ST2_ACTION_AUTH_TOKEN`, else `ST2_AUTH_TOKEN`. -/
def resolveAuthToken (cfg : Config) (env : Env) : Option String :=
  orNonEmpty (orNonEmpty cfg.auth_token env.st2_action_auth_token) env.st2_auth_token

/-- Lines 149-151: api key from the `api_key` kwarg, else `ST2_API_KEY`. -/
def resolveApiKey (cfg : Config) (env : Env) : Option String :=
  orNonEmpty cfg.api_key env.st2_api_key

/-- Lines 156-166: the headers dict; `none` models the
"no auth information provided" error. -/
def resolveHeader (cfg : Config) (env : Env) : Option Header :=
  if truthy (resolveAuthToken cfg env) then
    some (Header.xAuthToken ((resolveAuthToken cfg env).getD ""))
  else if truthy (resolveApiKey cfg env) then
    some (Header.st2ApiKey ((resolveApiKey cfg env).getD ""))
  else
    none

/-- Lines 172-177: `'{}/v1/keys/{}?scope={}'.format(api_url, key, scope)`,
then `+= "&decrypt=true"` when `decrypt` is truthy, then
`+= "&user={}".format(user)` when `user` is truthy. -/
def buildUrl (cfg : Config) (scope key : String) : String :=
  let url := resolveApiUrl cfg ++ "/v1/keys/" ++ key ++ "?scope=" ++ scope
  let url := if cfg.decrypt then url ++ "&decrypt=true" else url
  if truthy cfg.user then url ++ "&user=" ++ cfg.user.getD "" else url

/-- One iteration of the loop body of `run` for a single term: the
request issued (if execution reached `requests.get`) and either the
extracted `data["value"]` or the error raised. -/
def processTerm (cfg : Config) (env : Env) (http : Request → Response)
    (term : String) : Option Request × Except St2kvError String :=
  match resolveHeader cfg env with
  | none => (none, Except.error St2kvError.missingCredentials)
  | some headers =>
    match parse_scope_key (some term) with
    | Except.error e => (none, Except.error e)
    | Except.ok (scope, key) =>
      let req : Request := ⟨buildUrl cfg scope key, headers, cfg.ssl_verify⟩
      let resp := http req
      if resp.statusOk then
        match resp.json with
        | none => (some req, Except.error St2kvError.malformedResponse)
        | some data =>
          match data.lookup "value" with
          | none => (some req, Except.error St2kvError.malformedResponse)
          | some v => (some req, Except.ok v)
      else (some req, Except.error St2kvError.requestError)

/-- `LookupModule.run` over a batch of terms: the trace of requests
issued, and either the collected values (in term order) or the first
error, which aborts the whole batch. -/
def run (cfg : Config) (env : Env) (http : Request → Response) :
    List String → List Request × Except RunError (List String)
  | [] => ([], Except.ok [])
  | t :: rest =>
    match processTerm cfg env http t with
    | (reqIssued, Except.error e) => (reqIssued.toList, Except.error ⟨e, t⟩)
    | (reqIssued, Except.ok v) =>
      let r := run cfg env http rest
      (reqIssued.toList ++ r.fst, r.snd.map fun vs => v :: vs)

/-- Spec-side: first entry of the list that is present and non-empty. -/
def firstNonEmpty : List (Option String) → Option String
  | [] => none
  | none :: rest => firstNonEmpty rest
  | some s :: rest => if s = "" then firstNonEmpty rest else some s

/-- Spec-side credential resolution, following the spec's words: the
fixed priority list auth_token argument, ST2_ACTION_AUTH_TOKEN,
ST2_AUTH_TOKEN for a token, then api_key argument, ST2_API_KEY for an
api key; a resolved token yields `X-Auth-Token` and shadows any api key;
otherwise a resolved api key yields `St2-Api-Key`. -/
def specCredentialHeader (cfg : Config) (env : Env) : Option Header :=
  match firstNonEmpty [cfg.auth_token, env.st2_action_auth_token, env.st2_auth_token] with
  | some t => some (Header.xAuthToken t)
  | none =>
    match firstNonEmpty [cfg.api_key, env.st2_api_key] with
    | some k => some (Header.st2ApiKey k)
    | none => none

/-- The value a term resolves to when its request succeeds (and `""`
as an unused placeholder otherwise). -/
def termValue (cfg : Config) (env : Env) (http : Request → Response)
    (t : String) : String :=
  match (processTerm cfg env http t).snd with
  | Except.ok v => v
  | Except.error _ => ""

/-- A configuration with every option unset. -/
def emptyConfig : Config := ⟨none, none, none, true, none, none, false, none⟩

/-- An environment with none of the three variables set. -/
def emptyEnv : Env := ⟨none, none, none⟩

/-- A transport whose every response succeeds with body {"value": <url>}. -/
def okHttp : Request → Response :=
  fun r => ⟨true, some [("value", r.url)]⟩

/-- The configuration of the spec's URL-construction example:
`api_url = "https://h/api"`, `decrypt = true`, `user = "dave"`,
authenticated by an explicit token. -/
def cfgC1 : Config := ⟨some "https://h/api", none, none, true, some "tok", none, true, some "dave"⟩

/-- The request `cfgC1` issues for the term `"user.mykey"`. -/
def reqC1 : Request :=
  ⟨"https://h/api/v1/keys/mykey?scope=user&decrypt=true&user=dave", Header.xAuthToken "tok", true⟩

/-- Only an explicit auth token given. -/
def cfgAuth : Config := ⟨none, none, none, true, some "tok", none, false, none⟩

/-- No `api_url`; `hostname` and `port` given, as in the spec's
derived-URL example. -/
def cfgDerived : Config := ⟨none, some "st2.example", some "9101", true, none, none, false, none⟩

/-- The request `cfgAuth` issues for the term `"b"`. -/
def reqB : Request :=
  ⟨"https://localhost/api/v1/keys/b?scope=system", Header.xAuthToken "tok", true⟩

/-- The request `cfgAuth` issues for the term `"a"`. -/
def reqA : Request :=
  ⟨"https://localhost/api/v1/keys/a?scope=system", Header.xAuthToken "tok", true⟩

/-- A transport that answers a non-success status for the key `b` and
succeeds for every other request. -/
def mixedHttp : Request → Response :=
  fun r => if r.url = "https://localhost/api/v1/keys/b?scope=system" then ⟨false, none⟩
           else ⟨true, some [("value", r.url)]⟩

/-- A transport that always succeeds but whose body lacks a `value` field. -/
def noValueHttp : Request → Response :=
  fun _ => ⟨true, some [("other", "x")]⟩

/-! ### Helper lemmas -/

theorem splitOnDot_ne_nil (l : List Char) : splitOnDot l ≠ [] := by
  cases l with
  | nil => simp [splitOnDot]
  | cons c cs =>
    simp only [splitOnDot]
    split <;> simp

theorem splitOnDot_eq_of_no_dot (l : List Char) (h : '.' ∉ l) : splitOnDot l = [l] := by
  induction l with
  | nil => rfl
  | cons c cs ih =>
    simp only [List.mem_cons, not_or] at h
    simp only [splitOnDot, ih h.2]
    rw [if_neg (Ne.symm h.1)]
    rfl

theorem splitOnDot_append (s k : List Char) (h : '.' ∉ s) :
    splitOnDot (s ++ '.' :: k) = s :: splitOnDot k := by
  induction s with
  | nil => simp [splitOnDot]
  | cons c cs ih =>
    simp only [List.mem_cons, not_or] at h
    simp only [List.cons_append, splitOnDot, List.append_eq, ih h.2]
    rw [if_neg (Ne.symm h.1)]
    rfl

theorem joinDots_splitOnDot (l : List Char) : joinDots (splitOnDot l) = l := by
  induction l with
  | nil => rfl
  | cons c cs ih =>
    simp only [splitOnDot]
    by_cases hc : c = '.'
    · subst hc
      rw [if_pos rfl]
      rcases hr : splitOnDot cs with _ | ⟨p, rest⟩
      · exact absurd hr (splitOnDot_ne_nil cs)
      · rw [hr] at ih
        simpa [joinDots] using ih
    · rw [if_neg hc]
      rcases hr : splitOnDot cs with _ | ⟨p, rest⟩
      · exact absurd hr (splitOnDot_ne_nil cs)
      · rw [hr] at ih
        rcases rest with _ | ⟨q, rest'⟩
        · simpa [joinDots] using congrArg (c :: ·) ih
        · simpa [joinDots] using congrArg (c :: ·) ih

theorem mk_data (s : String) : String.mk s.data = s := rfl

theorem data_dot_concat (s k : String) :
    (s ++ "." ++ k).data = s.data ++ '.' :: k.data := by
  simp [String.data_append]

theorem ne_empty_of_data_ne_nil (t : String) (h : t.data ≠ []) : t ≠ "" := by
  intro he
  subst he
  exact h rfl

theorem parse_dot_split (s k : String) (hs : '.' ∉ s.data) :
    parse_scope_key (some (s ++ "." ++ k)) = Except.ok (s, k) := by
  have hdata := data_dot_concat s k
  have hne : (s ++ "." ++ k) ≠ "" := by
    apply ne_empty_of_data_ne_nil
    rw [hdata]
    simp
  simp only [parse_scope_key]
  rw [if_neg hne, hdata, splitOnDot_append s.data k.data hs]
  have hpos : 0 < (splitOnDot k.data).length :=
    List.length_pos.mpr (splitOnDot_ne_nil k.data)
  have h1 : (s.data :: splitOnDot k.data).length ≠ 1 := by
    simp only [List.length_cons]
    omega
  have h2 : ¬ (s.data :: splitOnDot k.data).length < 2 := by
    simp only [List.length_cons]
    omega
  rw [if_neg h1, if_neg h2]
  simp [joinDots_splitOnDot, mk_data]

theorem parse_no_dot (t : String) (hne : t ≠ "") (h : '.' ∉ t.data) :
    parse_scope_key (some t) = Except.ok ("system", t) := by
  simp only [parse_scope_key]
  rw [if_neg hne, splitOnDot_eq_of_no_dot t.data h]
  simp [mk_data]

theorem parse_isOk_of_ne (t : String) (hne : t ≠ "") :
    (parse_scope_key (some t)).isOk = true := by
  simp only [parse_scope_key]
  rw [if_neg hne]
  rcases hp : splitOnDot t.data with _ | ⟨a, rest⟩
  · exact absurd hp (splitOnDot_ne_nil t.data)
  · rcases rest with _ | ⟨b, rest'⟩
    · simp [Except.isOk, Except.toBool]
    · have h1 : (a :: b :: rest').length ≠ 1 := by simp
      have h2 : ¬ (a :: b :: rest').length < 2 := by
        simp only [List.length_cons]
        omega
      rw [if_neg h1, if_neg h2]
      simp [Except.isOk, Except.toBool]

theorem processTerm_of_no_header (cfg : Config) (env : Env) (http : Request → Response)
    (term : String) (h : resolveHeader cfg env = none) :
    processTerm cfg env http term = (none, Except.error St2kvError.missingCredentials) := by
  simp [processTerm, h]

theorem processTerm_fst_some (cfg : Config) (env : Env) (http : Request → Response)
    (term : String) (hd : Header) (scope key : String)
    (hH : resolveHeader cfg env = some hd)
    (hp : parse_scope_key (some term) = Except.ok (scope, key)) :
    (processTerm cfg env http term).fst =
      some ⟨buildUrl cfg scope key, hd, cfg.ssl_verify⟩ := by
  simp only [processTerm, hH, hp]
  split
  · split
    · rfl
    · split <;> rfl
  · rfl

theorem processTerm_fst_cases (cfg : Config) (env : Env) (http : Request → Response)
    (term : String) (req : Request)
    (h : (processTerm cfg env http term).fst = some req) :
    ∃ hd scope key, resolveHeader cfg env = some hd ∧
      parse_scope_key (some term) = Except.ok (scope, key) ∧
      req = ⟨buildUrl cfg scope key, hd, cfg.ssl_verify⟩ := by
  rcases hH : resolveHeader cfg env with _ | hd
  · rw [processTerm_of_no_header cfg env http term hH] at h
    simp at h
  · cases hp : parse_scope_key (some term) with
    | error e =>
      simp [processTerm, hH, hp] at h
    | ok sk =>
      obtain ⟨scope, key⟩ := sk
      rw [processTerm_fst_some cfg env http term hd scope key hH hp] at h
      exact ⟨hd, scope, key, rfl, rfl, (Option.some_injective _ h).symm⟩

theorem processTerm_status_false (cfg : Config) (env : Env) (http : Request → Response)
    (term : String) (req : Request)
    (hreq : (processTerm cfg env http term).fst = some req)
    (hst : (http req).statusOk = false) :
    processTerm cfg env http term = (some req, Except.error St2kvError.requestError) := by
  obtain ⟨hd, scope, key, hH, hp, hre⟩ := processTerm_fst_cases cfg env http term req hreq
  subst hre
  simp only [processTerm, hH, hp]
  simp [hst]

theorem processTerm_no_value (cfg : Config) (env : Env) (http : Request → Response)
    (term : String) (req : Request) (data : List (String × String))
    (hreq : (processTerm cfg env http term).fst = some req)
    (hst : (http req).statusOk = true)
    (hj : (http req).json = some data)
    (hv : data.lookup "value" = none) :
    processTerm cfg env http term = (some req, Except.error St2kvError.malformedResponse) := by
  obtain ⟨hd, scope, key, hH, hp, hre⟩ := processTerm_fst_cases cfg env http term req hreq
  subst hre
  simp only [processTerm, hH, hp]
  simp [hst, hj, hv]

theorem run_cons_error (cfg : Config) (env : Env) (http : Request → Response)
    (t : String) (rest : List String) (e : St2kvError) (reqIssued : Option Request)
    (h : processTerm cfg env http t = (reqIssued, Except.error e)) :
    run cfg env http (t :: rest) = (reqIssued.toList, Except.error ⟨e, t⟩) := by
  simp [run, h]

theorem run_cons_ok (cfg : Config) (env : Env) (http : Request → Response)
    (t : String) (rest : List String) (v : String) (reqIssued : Option Request)
    (h : processTerm cfg env http t = (reqIssued, Except.ok v)) :
    run cfg env http (t :: rest) =
      (reqIssued.toList ++ (run cfg env http rest).fst,
        ((run cfg env http rest).snd).map fun vs => v :: vs) := by
  simp [run, h]

theorem snd_ok_of_isOk (cfg : Config) (env : Env) (http : Request → Response)
    (t : String) (h : ((processTerm cfg env http t).snd).isOk = true) :
    ∃ v, (processTerm cfg env http t).snd = Except.ok v := by
  cases hs : (processTerm cfg env http t).snd with
  | error e => rw [hs] at h; simp [Except.isOk, Except.toBool] at h
  | ok v => exact ⟨v, rfl⟩

theorem run_of_all_ok (cfg : Config) (env : Env) (http : Request → Response)
    (terms : List String)
    (h : ∀ t ∈ terms, ((processTerm cfg env http t).snd).isOk = true) :
    run cfg env http terms =
      (terms.filterMap fun t => (processTerm cfg env http t).fst,
        Except.ok (terms.map (termValue cfg env http))) := by
  induction terms with
  | nil => rfl
  | cons t rest ih =>
    obtain ⟨v, hv⟩ := snd_ok_of_isOk cfg env http t (h t (List.mem_cons_self t rest))
    have hrest : ∀ s ∈ rest, ((processTerm cfg env http s).snd).isOk = true :=
      fun s hs => h s (List.mem_cons_of_mem t hs)
    rcases hp : processTerm cfg env http t with ⟨reqIssued, res⟩
    rw [hp] at hv
    simp only at hv
    subst hv
    rw [run_cons_ok cfg env http t rest v reqIssued hp, ih hrest]
    simp [List.filterMap_cons, termValue, hp, Except.map]
    cases reqIssued <;> simp [Except.map]

theorem run_snd_of_mid_error (cfg : Config) (env : Env) (http : Request → Response)
    (pre : List String) (t : String) (rest : List String) (err : St2kvError)
    (hpre : ∀ s ∈ pre, ((processTerm cfg env http s).snd).isOk = true)
    (ht : (processTerm cfg env http t).snd = Except.error err) :
    (run cfg env http (pre ++ t :: rest)).snd = Except.error ⟨err, t⟩ := by
  induction pre with
  | nil =>
    rcases hp : processTerm cfg env http t with ⟨reqIssued, res⟩
    rw [hp] at ht
    simp only at ht
    subst ht
    rw [List.nil_append, run_cons_error cfg env http t rest err reqIssued hp]
  | cons s pre' ih =>
    obtain ⟨v, hv⟩ := snd_ok_of_isOk cfg env http s (hpre s (List.mem_cons_self s pre'))
    have hpre' : ∀ s' ∈ pre', ((processTerm cfg env http s').snd).isOk = true :=
      fun s' hs => hpre s' (List.mem_cons_of_mem s hs)
    rcases hp : processTerm cfg env http s with ⟨reqIssued, res⟩
    rw [hp] at hv
    simp only at hv
    subst hv
    rw [List.cons_append, run_cons_ok cfg env http s (pre' ++ t :: rest) v reqIssued hp]
    simp [ih hpre', Except.map]

theorem truthy_some (s : String) : truthy (some s) = !s.isEmpty := rfl

theorem firstNonEmpty_cons (a : Option String) (l : List (Option String)) :
    firstNonEmpty (a :: l) = if truthy a then a else firstNonEmpty l := by
  cases a with
  | none => simp [firstNonEmpty, truthy]
  | some s =>
    by_cases hs : s = ""
    · subst hs
      simp [firstNonEmpty, truthy_some, show ("" : String).isEmpty = true from rfl]
    · have hs' : s.isEmpty = false := by
        cases h : s.isEmpty
        · rfl
        · exact absurd ((String.isEmpty_iff s).mp h) hs
      simp [firstNonEmpty, truthy_some, hs, hs']

theorem firstNonEmpty_nil : firstNonEmpty [] = none := rfl

theorem truthy_exists (x : Option String) (h : truthy x = true) :
    ∃ s, x = some s ∧ s.isEmpty = false := by
  cases x with
  | none => simp [truthy] at h
  | some s => exact ⟨s, rfl, by simpa [truthy] using h⟩

theorem resolveHeader_eq_spec (cfg : Config) (env : Env) :
    resolveHeader cfg env = specCredentialHeader cfg env := by
  by_cases h1 : truthy cfg.auth_token = true
  · obtain ⟨s, hx, hs⟩ := truthy_exists _ h1
    simp [resolveHeader, specCredentialHeader, resolveAuthToken, orNonEmpty,
      firstNonEmpty_cons, h1, hx, truthy_some, hs]
  · simp only [Bool.not_eq_true] at h1
    by_cases h2 : truthy env.st2_action_auth_token = true
    · obtain ⟨s, hx, hs⟩ := truthy_exists _ h2
      simp [resolveHeader, specCredentialHeader, resolveAuthToken, orNonEmpty,
        firstNonEmpty_cons, h1, h2, hx, truthy_some, hs]
    · simp only [Bool.not_eq_true] at h2
      by_cases h3 : truthy env.st2_auth_token = true
      · obtain ⟨s, hx, hs⟩ := truthy_exists _ h3
        simp [resolveHeader, specCredentialHeader, resolveAuthToken, orNonEmpty,
          firstNonEmpty_cons, h1, h2, h3, hx, truthy_some, hs]
      · simp only [Bool.not_eq_true] at h3
        by_cases h4 : truthy cfg.api_key = true
        · obtain ⟨s, hx, hs⟩ := truthy_exists _ h4
          simp [resolveHeader, specCredentialHeader, resolveAuthToken, resolveApiKey,
            orNonEmpty, firstNonEmpty_cons, firstNonEmpty_nil, h1, h2, h3, h4, hx, truthy_some, hs]
        · simp only [Bool.not_eq_true] at h4
          by_cases h5 : truthy env.st2_api_key = true
          · obtain ⟨s, hx, hs⟩ := truthy_exists _ h5
            simp [resolveHeader, specCredentialHeader, resolveAuthToken, resolveApiKey,
              orNonEmpty, firstNonEmpty_cons, firstNonEmpty_nil, h1, h2, h3, h4, h5, hx, truthy_some, hs]
          · simp only [Bool.not_eq_true] at h5
            simp [resolveHeader, specCredentialHeader, resolveAuthToken, resolveApiKey,
              orNonEmpty, firstNonEmpty_cons, firstNonEmpty_nil, h1, h2, h3, h4, h5]

theorem buildUrl_eq (cfg : Config) (scope key : String) :
    buildUrl cfg scope key =
      resolveApiUrl cfg ++ "/v1/keys/" ++ key ++ "?scope=" ++ scope
        ++ (if cfg.decrypt then "&decrypt=true" else "")
        ++ (if truthy cfg.user then "&user=" ++ cfg.user.getD "" else "") := by
  simp only [buildUrl]
  cases hd : cfg.decrypt <;> by_cases hu : truthy cfg.user = true <;>
    simp [hd, hu] <;> apply String.ext <;>
      simp [String.data_append, show ("" : String).data = [] from rfl, List.append_assoc]

/-! ### Claims -/

/-- C1: for every term parsed to `(scope, key)` and every configuration, the
requested URL is exactly `{api_url}/v1/keys/{key}?scope={scope}`, with
`&decrypt=true` appended when `decrypt` is set and `&user={user}` appended
when `user` is set, in that fixed order. -/
theorem c1_url_construction (cfg : Config) (env : Env) (http : Request → Response)
    (term scope key : String) (req : Request)
    (hparse : parse_scope_key (some term) = Except.ok (scope, key))
    (hreq : (processTerm cfg env http term).fst = some req) :
    req.url = resolveApiUrl cfg ++ "/v1/keys/" ++ key ++ "?scope=" ++ scope
      ++ (if cfg.decrypt then "&decrypt=true" else "")
      ++ (if truthy cfg.user then "&user=" ++ cfg.user.getD "" else "") := by
  obtain ⟨hd, scope', key', hH, hp, hre⟩ := processTerm_fst_cases cfg env http term req hreq
  have h := hparse.symm.trans hp
  simp only [Except.ok.injEq, Prod.mk.injEq] at h
  obtain ⟨hs, hk⟩ := h
  subst hs
  subst hk
  subst hre
  exact buildUrl_eq cfg scope key

/-- Witness for C1 at the spec's own example: config
`api_url = "https://h/api"`, `decrypt = true`, `user = "dave"`,
term `"user.mykey"`. -/
theorem c1_url_construction_witness :
    reqC1.url = resolveApiUrl cfgC1 ++ "/v1/keys/" ++ "mykey" ++ "?scope=" ++ "user"
      ++ (if cfgC1.decrypt then "&decrypt=true" else "")
      ++ (if truthy cfgC1.user then "&user=" ++ cfgC1.user.getD "" else "") :=
  c1_url_construction cfgC1 emptyEnv okHttp "user.mykey" "user" "mykey" reqC1 rfl rfl

/-- C2: credentials resolve by the fixed priority auth_token argument,
ST2_ACTION_AUTH_TOKEN, ST2_AUTH_TOKEN, api_key argument, ST2_API_KEY; a
resolved token gives exactly the `X-Auth-Token` header (never
`St2-Api-Key`, even when an api key is also available), otherwise a
resolved api key gives exactly `St2-Api-Key`; any issued request carries
exactly the so-resolved header. -/
theorem c2_credential_priority (cfg : Config) (env : Env) (http : Request → Response)
    (term : String) :
    resolveHeader cfg env = specCredentialHeader cfg env ∧
    ((processTerm cfg env http term).fst.map Request.headers = none ∨
      (processTerm cfg env http term).fst.map Request.headers = specCredentialHeader cfg env) := by
  refine ⟨resolveHeader_eq_spec cfg env, ?_⟩
  cases hreq : (processTerm cfg env http term).fst with
  | none => exact Or.inl rfl
  | some req =>
    obtain ⟨hd, scope, key, hH, hp, hre⟩ := processTerm_fst_cases cfg env http term req hreq
    subst hre
    right
    rw [← resolveHeader_eq_spec cfg env, hH]
    rfl

/-- C3 counterexample: with no credentials available from any argument or
environment variable but an empty batch of terms, `run` succeeds with `[]`
instead of failing with the missing-credentials error. -/
theorem c3_counterexample :
    resolveHeader emptyConfig emptyEnv = none ∧
    run emptyConfig emptyEnv okHttp [] = ([], Except.ok []) :=
  ⟨rfl, rfl⟩

/-- C3 (amended): for every call with at least one term in which neither an
auth token nor an api key resolves, `run` fails with the
missing-credentials error at the first term and zero HTTP requests are
issued. -/
theorem c3_missing_credentials (cfg : Config) (env : Env) (http : Request → Response)
    (t : String) (rest : List String)
    (h : resolveHeader cfg env = none) :
    run cfg env http (t :: rest) =
      ([], Except.error ⟨St2kvError.missingCredentials, t⟩) := by
  rw [run_cons_error cfg env http t rest St2kvError.missingCredentials none
    (processTerm_of_no_header cfg env http t h)]
  rfl

/-- Witness for the amended C3: empty configuration and environment, batch
`["a"]`. -/
theorem c3_missing_credentials_witness :
    run emptyConfig emptyEnv okHttp ["a"] =
      ([], Except.error ⟨St2kvError.missingCredentials, "a"⟩) :=
  c3_missing_credentials emptyConfig emptyEnv okHttp "a" [] rfl

/-- C4: when every term before `t` succeeds and `t`'s response has a
non-success status, the whole batch fails with a request error naming `t`,
exactly one request is issued for `t` and none for the later terms, and no
value list is returned. -/
theorem c4_fail_fast (cfg : Config) (env : Env) (http : Request → Response)
    (pre rest : List String) (t : String) (req : Request)
    (hpre : ∀ s ∈ pre, ((processTerm cfg env http s).snd).isOk = true)
    (hreq : (processTerm cfg env http t).fst = some req)
    (hst : (http req).statusOk = false) :
    run cfg env http (pre ++ t :: rest) =
      ((run cfg env http pre).fst ++ [req],
        Except.error ⟨St2kvError.requestError, t⟩) := by
  induction pre with
  | nil =>
    rw [List.nil_append,
      run_cons_error cfg env http t rest St2kvError.requestError (some req)
        (processTerm_status_false cfg env http t req hreq hst)]
    rfl
  | cons s pre' ih =>
    obtain ⟨v, hv⟩ := snd_ok_of_isOk cfg env http s (hpre s (List.mem_cons_self s pre'))
    have hpre' : ∀ x ∈ pre', ((processTerm cfg env http x).snd).isOk = true :=
      fun x hx => hpre x (List.mem_cons_of_mem s hx)
    rcases hp : processTerm cfg env http s with ⟨reqIssued, res⟩
    rw [hp] at hv
    simp only at hv
    subst hv
    rw [List.cons_append,
      run_cons_ok cfg env http s (pre' ++ t :: rest) v reqIssued hp,
      ih hpre', run_cons_ok cfg env http s pre' v reqIssued hp]
    simp [Except.map, List.append_assoc]

/-- Witness for C4 at the spec's fail-fast example: the second of three
terms hits a non-success status; the error names `"b"` and no request is
issued for `"c"`. -/
theorem c4_fail_fast_witness :
    run cfgAuth emptyEnv mixedHttp (["a"] ++ "b" :: ["c"]) =
      ((run cfgAuth emptyEnv mixedHttp ["a"]).fst ++ [reqB],
        Except.error ⟨St2kvError.requestError, "b"⟩) :=
  c4_fail_fast cfgAuth emptyEnv mixedHttp ["a"] ["c"] "b" reqB (by decide) rfl rfl

/-- C5: the scope is the substring before the first dot and the key is
everything after it (later dots are part of the key); a dot-free term gets
scope `"system"`; a leading `st2kv` segment is not stripped but becomes
the scope. -/
theorem c5_parse_split (s k t : String)
    (hs : '.' ∉ s.data) (ht : '.' ∉ t.data) (htne : t ≠ "") :
    parse_scope_key (some (s ++ "." ++ k)) = Except.ok (s, k) ∧
    parse_scope_key (some t) = Except.ok ("system", t) ∧
    parse_scope_key (some ("st2kv" ++ "." ++ k)) = Except.ok ("st2kv", k) :=
  ⟨parse_dot_split s k hs, parse_no_dot t htne ht,
    parse_dot_split "st2kv" k (by decide)⟩

/-- Witness for C5 at the spec's examples: `"system.my.coolkey"`,
`"my_key"`, and an `st2kv.`-prefixed term. -/
theorem c5_parse_split_witness :
    parse_scope_key (some ("system" ++ "." ++ "my.coolkey")) =
      Except.ok ("system", "my.coolkey") ∧
    parse_scope_key (some "my_key") = Except.ok ("system", "my_key") ∧
    parse_scope_key (some ("st2kv" ++ "." ++ "my.coolkey")) =
      Except.ok ("st2kv", "my.coolkey") :=
  c5_parse_split "system" "my.coolkey" "my_key" (by decide) (by decide) (by decide)

/-- C6: `parse_scope_key` fails with the invalid-term error exactly on the
absent (`none`) and empty (`""`) terms, and succeeds on every other
input. -/
theorem c6_invalid_term (t : String) (h : t ≠ "") :
    parse_scope_key none = Except.error St2kvError.invalidTerm ∧
    parse_scope_key (some "") = Except.error St2kvError.invalidTerm ∧
    (parse_scope_key (some t)).isOk = true :=
  ⟨rfl, rfl, parse_isOk_of_ne t h⟩

/-- Witness for C6 at the term `"a"`. -/
theorem c6_invalid_term_witness :
    parse_scope_key none = Except.error St2kvError.invalidTerm ∧
    parse_scope_key (some "") = Except.error St2kvError.invalidTerm ∧
    (parse_scope_key (some "a")).isOk = true :=
  c6_invalid_term "a" (by decide)

/-- C7: with `api_url` absent the base URL is derived as
`https://{hostname}:{port}/api` when a port is given and
`https://{hostname}/api` otherwise, `hostname` defaulting to
`"localhost"`; a present (non-empty) `api_url` is used unchanged. -/
theorem c7_base_url (cfg : Config) (u hn p : String) :
    (cfg.api_url = some u → u ≠ "" → resolveApiUrl cfg = u) ∧
    (truthy cfg.api_url = false →
      ((cfg.hostname = some hn → truthy cfg.port = false →
          resolveApiUrl cfg = "https://" ++ hn ++ "/api") ∧
        (cfg.hostname = some hn → cfg.port = some p → p ≠ "" →
          resolveApiUrl cfg = "https://" ++ hn ++ ":" ++ p ++ "/api") ∧
        (cfg.hostname = none → truthy cfg.port = false →
          resolveApiUrl cfg = "https://localhost/api") ∧
        (cfg.hostname = none → cfg.port = some p → p ≠ "" →
          resolveApiUrl cfg = "https://localhost:" ++ p ++ "/api"))) := by
  constructor
  · intro hau hu
    have htr : truthy cfg.api_url = true := by
      rw [hau, truthy_some]
      cases h : u.isEmpty
      · rfl
      · exact absurd ((String.isEmpty_iff u).mp h) hu
    simp [resolveApiUrl, htr, hau]
    intro hf
    rw [hau] at htr
    rw [htr] at hf
    cases hf
  · intro hau
    refine ⟨fun hh hpo => ?_, fun hh hpo hpne => ?_,
      fun hh hpo => ?_, fun hh hpo hpne => ?_⟩
    · simp [resolveApiUrl, hau, hh, hpo]
    · have htr : truthy cfg.port = true := by
        rw [hpo, truthy_some]
        cases h : p.isEmpty
        · rfl
        · exact absurd ((String.isEmpty_iff p).mp h) hpne
      simp [resolveApiUrl, hau, hh, hpo, htr]
      intro hf
      rw [hpo] at htr
      rw [htr] at hf
      cases hf
    · simp [resolveApiUrl, hau, hh, hpo]
    · have htr : truthy cfg.port = true := by
        rw [hpo, truthy_some]
        cases h : p.isEmpty
        · rfl
        · exact absurd ((String.isEmpty_iff p).mp h) hpne
      simp [resolveApiUrl, hau, hh, hpo, htr]
      intro hf
      rw [hpo] at htr
      rw [htr] at hf
      cases hf

/-- Witness for C7 at the spec's derived-URL example:
`hostname = "st2.example"`, `port = "9101"`, no `api_url`. -/
theorem c7_base_url_witness :
    truthy cfgDerived.api_url = false ∧
    resolveApiUrl cfgDerived = "https://st2.example:9101/api" :=
  ⟨rfl, ((c7_base_url cfgDerived "x" "st2.example" "9101").2 rfl).2.1 rfl rfl (by decide)⟩

/-- C8: when every per-term request succeeds, `run` returns exactly one
value per input term, in input order, each being the extracted `value`
field of that term's response. -/
theorem c8_batch_order (cfg : Config) (env : Env) (http : Request → Response)
    (terms : List String)
    (h : ∀ t ∈ terms, ((processTerm cfg env http t).snd).isOk = true) :
    (run cfg env http terms).snd =
      Except.ok (terms.map (termValue cfg env http)) := by
  rw [run_of_all_ok cfg env http terms h]

/-- Witness for C8 at the batch `["a", "b"]` with an all-success
transport. -/
theorem c8_batch_order_witness :
    (run cfgAuth emptyEnv okHttp ["a", "b"]).snd =
      Except.ok (["a", "b"].map (termValue cfgAuth emptyEnv okHttp)) :=
  c8_batch_order cfgAuth emptyEnv okHttp ["a", "b"] (by decide)

/-- C9: a term whose request succeeds but whose JSON body lacks the
`value` field fails the whole batch with the malformed-response error and
no value list is returned. -/
theorem c9_malformed_response (cfg : Config) (env : Env) (http : Request → Response)
    (pre : List String) (t : String) (rest : List String)
    (req : Request) (data : List (String × String))
    (hpre : ∀ s ∈ pre, ((processTerm cfg env http s).snd).isOk = true)
    (hreq : (processTerm cfg env http t).fst = some req)
    (hst : (http req).statusOk = true)
    (hj : (http req).json = some data)
    (hv : data.lookup "value" = none) :
    (run cfg env http (pre ++ t :: rest)).snd =
      Except.error ⟨St2kvError.malformedResponse, t⟩ :=
  run_snd_of_mid_error cfg env http pre t rest St2kvError.malformedResponse hpre
    (by rw [processTerm_no_value cfg env http t req data hreq hst hj hv])

/-- Witness for C9: a response with body `{"other": "x"}` for the term
`"a"`. -/
theorem c9_malformed_response_witness :
    (run cfgAuth emptyEnv noValueHttp ([] ++ "a" :: [])).snd =
      Except.error ⟨St2kvError.malformedResponse, "a"⟩ :=
  c9_malformed_response cfgAuth emptyEnv noValueHttp [] "a" [] reqA [("other", "x")]
    (by decide) rfl rfl rfl rfl

/-- C10: an empty batch of terms returns an empty value list and issues no
request, whatever the configuration, environment and transport — in
particular even when no credentials are available. -/
theorem c10_empty_batch (cfg : Config) (env : Env) (http : Request → Response) :
    run cfg env http [] = ([], Except.ok []) := rfl
